import Mathlib

/-!
Verification development for the vtree_search asynchronous job execution
plane: a shallow embedding of the Redis-Streams queue adapter
(`queue/redis_streams.py`), the search engine service layer
(`search/engine.py`), and the relevance-filter validation
(`llm/langchain_search.py`), together with theorems settling the spec
claims about submission backpressure, the retry/backoff policy, the
decision-validation contract, result ranking, and the query surface.

Modelling conventions:
- Redis job hashes store every field as a string.  Fields with a fixed
  parsed shape (`retries` as a decimal string, `canceled` as "0"/"1")
  are modelled at their parsed type because every writer serialises the
  parsed value and every reader parses it back.
- Timestamps (`_utc_now`) are threaded as explicit `now : String`
  arguments; TTL refresh (`expire`) has no observable effect in the
  embedding because expiry itself is not modelled.
- External effects that the Python code treats as opaque calls are
  oracle parameters: JSON encoding/decoding (`json.dumps`/`json.loads`),
  the Rust pipeline bridge (`execute_search_job`), the LLM chat call,
  and the approximate `XTRIM` performed by Redis.
- `XACK` and the backoff sleep do not change the modelled state, so the
  worker step returns them as an explicit effect list.
-/

namespace VtreeSearch

/-- Exception kinds, mirroring `exceptions.py` plus the Python built-in
errors (`pydantic.ValidationError`, `json.JSONDecodeError`, `KeyError`)
the engine can raise. -/
inductive ExcKind where
  | configurationError
  | queueOverloadedError
  | jobNotFoundError
  | jobExpiredError
  | jobFailedError
  | dependencyUnavailableError
  | validationError
  | jsonDecodeError
  | keyError
  deriving DecidableEq, Repr

/-- An exception value: its class and its message (`str(exc)`). -/
structure Exc where
  kind : ExcKind
  msg : String
  deriving DecidableEq, Repr

/-- Postgres configuration; only `embedding_dim` is read by the job
execution plane (`config/models.py`, `PostgresConfig`). -/
structure PostgresConfig where
  embedding_dim : Nat
  deriving Repr

/-- Redis queue configuration (`config/models.py`, `RedisQueueConfig`). -/
structure RedisQueueConfig where
  module_name_search : String
  stream_search : String
  stream_search_dlq : String
  consumer_group : String
  queue_max_len : Nat
  queue_reject_at : Nat
  result_ttl_sec : Nat
  worker_block_ms : Nat
  deriving Repr

/-- Search engine configuration (`config/models.py`, `SearchConfig`). -/
structure SearchConfig where
  postgres : PostgresConfig
  redis : RedisQueueConfig
  worker_concurrency : Nat
  max_retries : Nat
  retry_base_ms : Nat
  retry_max_ms : Nat
  entry_limit : Nat
  page_limit : Nat
  deriving Repr

/-- Search result candidate (`contracts/job_models.py`, `SearchCandidate`).
Scores are modelled as rationals; pydantic constrains them to [0, 1]. -/
structure SearchCandidate where
  node_id : String
  path : String
  score : Rat
  content : String
  image_url : Option String
  reason : String
  deriving DecidableEq, Repr

/-- Pipeline metrics (`contracts/job_models.py`, `SearchMetrics`). -/
structure SearchMetrics where
  entry_count : Nat
  page_count : Nat
  kept_count : Nat
  elapsed_ms : Nat
  deriving DecidableEq, Repr

/-- Submission acknowledgement (`contracts/job_models.py`,
`SearchJobAccepted`). -/
structure SearchJobAccepted where
  job_id : String
  state : String
  submitted_at : String
  deriving DecidableEq, Repr

/-- Job status view (`contracts/job_models.py`, `SearchJobStatus`). -/
structure SearchJobStatus where
  job_id : String
  state : String
  retries : Nat
  canceled : Bool
  updated_at : String
  last_error : Option String
  deriving DecidableEq, Repr

/-- Final job result (`contracts/job_models.py`, `SearchJobResult`). -/
structure SearchJobResult where
  job_id : String
  state : String
  candidates : List SearchCandidate
  metrics : SearchMetrics
  completed_at : String
  deriving DecidableEq, Repr

/-- Cancellation response (`contracts/job_models.py`, `SearchJobCanceled`). -/
structure SearchJobCanceled where
  job_id : String
  state : String
  message : String
  deriving DecidableEq, Repr

/-- Relevance-filter input candidate (`llm/contracts.py`,
`SearchFilterCandidate`). -/
structure SearchFilterCandidate where
  node_id : String
  content : String
  deriving DecidableEq, Repr

/-- Relevance-judge decision (`llm/contracts.py`, `SearchFilterDecision`). -/
structure SearchFilterDecision where
  node_id : String
  keep : Bool
  reason : String
  deriving DecidableEq, Repr

/-- The five job states admitted by the pydantic `JobState` literal. -/
def isJobState (s : String) : Prop :=
  s = "PENDING" ∨ s = "RUNNING" ∨ s = "SUCCEEDED" ∨ s = "FAILED" ∨ s = "CANCELED"

instance (s : String) : Decidable (isJobState s) := by
  unfold isJobState; infer_instance

/-- A job state hash `job:<job_id>` as written by `create_job_record` and
the `mark_*` mutators.  `completed_at` is absent at creation; an absent
string field reads back as the empty string through the falsy `or`
chains used by every consumer. -/
structure JobRecord where
  job_id : String
  state : String
  retries : Nat
  canceled : Bool
  created_at : String
  updated_at : String
  module_name : String
  payload_json : String
  last_error : String
  result_json : String
  completed_at : String
  deriving DecidableEq, Repr

/-- A main-stream message with the fields written by
`RedisSearchQueue.enqueue`. -/
structure StreamMsg where
  job_id : String
  payload_json : String
  retries : Nat
  module_name : String
  enqueued_at : String
  deriving DecidableEq, Repr

/-- A dead-letter-queue entry: the original message fields plus
`moved_at` and `error` (`RedisSearchQueue.move_to_dlq`). -/
structure DlqMsg where
  original : StreamMsg
  moved_at : String
  error : String
  deriving DecidableEq, Repr

/-- The modelled Redis state: the main stream, the job hashes, and the
DLQ stream.  `XACK` affects only the consumer group's pending-entries
list, which no claim observes, so it is not part of the state. -/
structure RedisState where
  stream : List StreamMsg
  jobs : String → Option JobRecord
  dlq : List DlqMsg

/-- Queue depth: `XLEN` of the main stream (`queue_depth`). -/
def queueDepth (s : RedisState) : Nat :=
  s.stream.length

/-- Capacity guard (`guard_capacity`): raises queue-overloaded when the
observed depth reaches `queue_reject_at`. -/
def guardCapacity (cfg : RedisQueueConfig) (s : RedisState) : Except Exc Unit :=
  if queueDepth s ≥ cfg.queue_reject_at then
    .error ⟨.queueOverloadedError,
      "큐 포화 상태입니다: depth=" ++ toString (queueDepth s)
        ++ ", reject_at=" ++ toString cfg.queue_reject_at⟩
  else
    .ok ()

/-- Initial job hash written by `create_job_record`. -/
def initialRecord (job_id payload_json module_name now : String) : JobRecord :=
  { job_id := job_id
    state := "PENDING"
    retries := 0
    canceled := false
    created_at := now
    updated_at := now
    module_name := module_name
    payload_json := payload_json
    last_error := ""
    result_json := ""
    completed_at := "" }

/-- Writes the initial job hash (`create_job_record`).  The TTL set by
`expire` is not modelled. -/
def createJobRecord (s : RedisState) (job_id payload_json module_name now : String) :
    RedisState :=
  { s with jobs := fun k =>
      if k = job_id then some (initialRecord job_id payload_json module_name now)
      else s.jobs k }

/-- A job hash holding no fields, as `HSET` on a missing key would
produce before the patch is applied.  Unreachable in the engine's flows,
where every update targets a record created by `create_job_record`. -/
def emptyRecord : JobRecord :=
  { job_id := ""
    state := ""
    retries := 0
    canceled := false
    created_at := ""
    updated_at := ""
    module_name := ""
    payload_json := ""
    last_error := ""
    result_json := ""
    completed_at := "" }

/-- Partial hash update (`update_job_record`): merges the patch and
always refreshes `updated_at`. -/
def updateJobRecord (s : RedisState) (job_id : String)
    (patch : JobRecord → JobRecord) (now : String) : RedisState :=
  let base := (s.jobs job_id).getD emptyRecord
  let updated := { patch base with updated_at := now }
  { s with jobs := fun k => if k = job_id then some updated else s.jobs k }

/-- Marks a job SUCCEEDED (`mark_succeeded`); `resultJson` is the
`json.dumps` of the result dict. -/
def markSucceeded (s : RedisState) (job_id resultJson now : String) : RedisState :=
  updateJobRecord s job_id
    (fun r => { r with
      state := "SUCCEEDED"
      result_json := resultJson
      completed_at := now
      last_error := "" })
    now

/-- Marks a job FAILED (`mark_failed`). -/
def markFailed (s : RedisState) (job_id error_message : String) (retries : Nat)
    (now : String) : RedisState :=
  updateJobRecord s job_id
    (fun r => { r with
      state := "FAILED"
      retries := retries
      last_error := error_message
      completed_at := now })
    now

/-- Marks a job RUNNING (`mark_running`). -/
def markRunning (s : RedisState) (job_id : String) (retries : Nat) (now : String) :
    RedisState :=
  updateJobRecord s job_id
    (fun r => { r with state := "RUNNING", retries := retries })
    now

/-- Returns a job to PENDING for a retry (`mark_pending_retry`). -/
def markPendingRetry (s : RedisState) (job_id : String) (retries : Nat)
    (error_message now : String) : RedisState :=
  updateJobRecord s job_id
    (fun r => { r with
      state := "PENDING"
      retries := retries
      last_error := error_message })
    now

/-- Marks a job CANCELED (`mark_canceled`). -/
def markCanceled (s : RedisState) (job_id now : String) : RedisState :=
  updateJobRecord s job_id
    (fun r => { r with
      state := "CANCELED"
      canceled := true
      completed_at := now })
    now

/-- Records the cancel-request flag only (`mark_cancel_requested`). -/
def markCancelRequested (s : RedisState) (job_id now : String) : RedisState :=
  updateJobRecord s job_id (fun r => { r with canceled := true }) now

/-- Approximate trim before append (`_truncate_if_needed`): a no-op when
the depth is within `queue_max_len`; otherwise the stream is rewritten
by the `XTRIM ... MAXLEN ~` oracle `trim`. -/
def truncateIfNeeded (cfg : RedisQueueConfig)
    (trim : List StreamMsg → List StreamMsg) (s : RedisState) : RedisState :=
  if queueDepth s ≤ cfg.queue_max_len then s
  else { s with stream := trim s.stream }

/-- Appends a message to the main stream (`enqueue`), trimming first. -/
def enqueue (cfg : RedisQueueConfig) (trim : List StreamMsg → List StreamMsg)
    (s : RedisState) (job_id payload_json : String) (retries : Nat)
    (module_name now : String) : RedisState :=
  let s1 := truncateIfNeeded cfg trim s
  { s1 with stream := s1.stream ++
      [{ job_id := job_id
         payload_json := payload_json
         retries := retries
         module_name := module_name
         enqueued_at := now }] }

/-- Copies a failing message to the DLQ stream with `moved_at` and
`error` (`move_to_dlq`). -/
def moveToDlq (s : RedisState) (m : StreamMsg) (error_message now : String) :
    RedisState :=
  { s with dlq := s.dlq ++ [{ original := m, moved_at := now, error := error_message }] }

/-- Reads a job hash (`get_job_record`); an empty hash reads as `none`. -/
def getJobRecord (s : RedisState) (job_id : String) : Option JobRecord :=
  s.jobs job_id

/-- Submission snapshot (`contracts/search_models.py`,
`SearchSubmission`).  Embedding entries are modelled as rationals; only
the vector length is inspected by the execution plane.  `metadata` is
kept opaque. -/
structure SearchSubmission where
  job_id : String
  query_text : String
  query_embedding : List Rat
  top_k : Nat
  metadata : Option String
  deriving Repr

/-- Validation of a `SearchJobStatus` as performed by
`SearchJobStatus.model_validate`: non-empty `job_id` and `updated_at`,
and a `state` drawn from the `JobState` literal. -/
def validStatus (st : SearchJobStatus) : Prop :=
  st.job_id ≠ "" ∧ isJobState st.state ∧ st.updated_at ≠ ""

instance (st : SearchJobStatus) : Decidable (validStatus st) := by
  unfold validStatus; infer_instance

/-- Validation of a `SearchCandidate` per its pydantic field
constraints: non-empty `node_id` and `path`, score in [0, 1]. -/
def validCandidate (c : SearchCandidate) : Prop :=
  c.node_id ≠ "" ∧ c.path ≠ "" ∧ 0 ≤ c.score ∧ c.score ≤ 1

instance (c : SearchCandidate) : Decidable (validCandidate c) := by
  unfold validCandidate; infer_instance

/-- Validation of a `SearchJobResult` per `model_validate`: non-empty
`job_id` and `completed_at`, a legal state literal, and valid
candidates.  A decoded dict missing a required key also fails
`model_validate`; in the embedding that is represented by the
corresponding empty field. -/
def validResult (res : SearchJobResult) : Prop :=
  res.job_id ≠ "" ∧ isJobState res.state ∧ res.completed_at ≠ "" ∧
    ∀ c ∈ res.candidates, validCandidate c

instance (res : SearchJobResult) : Decidable (validResult res) := by
  unfold validResult; infer_instance

/-- Decoded `result_json` payload as produced by
`_build_filtered_result` and re-read by `fetch_result`: the result dict
before `state`/`completed_at` stamping. -/
structure ResultDict where
  job_id : String
  candidates : List SearchCandidate
  metrics : SearchMetrics
  deriving DecidableEq, Repr

/-- Submits a search job (`VTreeSearchEngine.submit_search`).  Oracles:
`trim` for approximate trimming, `dumpPayload` for
`json.dumps(_build_rust_payload(...))`, `jobId` for the minted
`uuid4().hex`.  Returns the response (or the raised exception) together
with the resulting Redis state; on a raised exception the state is the
input state, since the exception propagates before any write. -/
def submitSearch (cfg : SearchConfig) (trim : List StreamMsg → List StreamMsg)
    (dumpPayload : SearchSubmission → String) (jobId now : String)
    (s : RedisState) (query_text : String) (query_embedding : List Rat)
    (top_k : Nat) (metadata : Option String) :
    Except Exc SearchJobAccepted × RedisState :=
  if top_k < 1 then
    (.error ⟨.configurationError, "top_k는 1 이상이어야 합니다"⟩, s)
  else if query_embedding.length ≠ cfg.postgres.embedding_dim then
    (.error ⟨.configurationError,
      "query_embedding 길이가 embedding_dim과 일치하지 않습니다: expected="
        ++ toString cfg.postgres.embedding_dim
        ++ ", actual=" ++ toString query_embedding.length⟩, s)
  else
    match guardCapacity cfg.redis s with
    | .error e => (.error e, s)
    | .ok _ =>
      let submission : SearchSubmission :=
        { job_id := jobId
          query_text := query_text
          query_embedding := query_embedding
          top_k := top_k
          metadata := metadata }
      let payload_json := dumpPayload submission
      let module_name := cfg.redis.module_name_search
      let s1 := createJobRecord s jobId payload_json module_name now
      let s2 := enqueue cfg.redis trim s1 jobId payload_json 0 module_name now
      (.ok { job_id := jobId, state := "PENDING", submitted_at := now }, s2)

/-- Reads a job status (`VTreeSearchEngine.get_job`). -/
def getJob (s : RedisState) (job_id : String) : Except Exc SearchJobStatus :=
  match getJobRecord s job_id with
  | none => .error ⟨.jobNotFoundError, "job_id=" ++ job_id ++ "를 찾을 수 없습니다"⟩
  | some r =>
    let status : SearchJobStatus :=
      { job_id := job_id
        state := r.state
        retries := r.retries
        canceled := r.canceled
        updated_at := r.updated_at
        last_error := if r.last_error = "" then none else some r.last_error }
    if validStatus status then .ok status
    else .error ⟨.validationError, "SearchJobStatus 검증 실패"⟩

/-- Fetches a successful job result (`VTreeSearchEngine.fetch_result`).
The oracle `parse` stands for `json.loads`; `now` is the `_utc_now`
fallback used when neither `completed_at` nor `updated_at` is set. -/
def fetchResult (parse : String → Option ResultDict) (s : RedisState)
    (job_id now : String) : Except Exc SearchJobResult :=
  match getJobRecord s job_id with
  | none =>
    .error ⟨.jobExpiredError,
      "job_id=" ++ job_id ++ " 결과가 만료되었거나 존재하지 않습니다"⟩
  | some r =>
    if r.state = "FAILED" then
      .error ⟨.jobFailedError,
        if r.last_error = "" then "job_id=" ++ job_id ++ "가 실패했습니다"
        else r.last_error⟩
    else if r.state ≠ "SUCCEEDED" then
      .error ⟨.jobFailedError,
        "job_id=" ++ job_id ++ " 상태가 SUCCEEDED가 아닙니다: " ++ r.state⟩
    else if r.result_json = "" then
      .error ⟨.jobFailedError,
        "job_id=" ++ job_id ++ "의 result_json이 비어 있습니다"⟩
    else
      match parse r.result_json with
      | none =>
        .error ⟨.jobFailedError, "job_id=" ++ job_id ++ " 결과 JSON 파싱 실패"⟩
      | some p =>
        let completed :=
          if r.completed_at ≠ "" then r.completed_at
          else if r.updated_at ≠ "" then r.updated_at
          else now
        let res : SearchJobResult :=
          { job_id := p.job_id
            state := "SUCCEEDED"
            candidates := p.candidates
            metrics := p.metrics
            completed_at := completed }
        if validResult res then .ok res
        else .error ⟨.validationError, "SearchJobResult 검증 실패"⟩

/-- Requests cancellation (`VTreeSearchEngine.cancel_job`): terminal
states get a no-op canceled view; otherwise the cancel flag is set, and
a PENDING job is additionally marked CANCELED at once. -/
def cancelJob (s : RedisState) (job_id now : String) :
    Except Exc SearchJobCanceled × RedisState :=
  match getJobRecord s job_id with
  | none => (.error ⟨.jobNotFoundError, "job_id=" ++ job_id ++ "를 찾을 수 없습니다"⟩, s)
  | some r =>
    if r.state = "SUCCEEDED" ∨ r.state = "FAILED" ∨ r.state = "CANCELED" then
      (.ok { job_id := job_id, state := "CANCELED",
             message := "이미 종결된 작업입니다: current_state=" ++ r.state }, s)
    else
      let s1 := markCancelRequested s job_id now
      let s2 := if r.state = "PENDING" then markCanceled s1 job_id now else s1
      (.ok { job_id := job_id, state := "CANCELED",
             message := "취소 요청이 접수되었습니다" }, s2)

/-- Node ids of a decision list, in order. -/
def decisionIds (decisions : List SearchFilterDecision) : List String :=
  decisions.map (fun d => d.node_id)

/-- Node ids of a filter-candidate list, in order. -/
def candidateIds (candidates : List SearchFilterCandidate) : List String :=
  candidates.map (fun c => c.node_id)

/-- Sorts strings ascending, modelling Python `sorted` on id sets.
Insertion sort is used because any stable sort under a total preorder
yields the same list as Python's sort. -/
def sortedIds (ids : List String) : List String :=
  List.insertionSort (fun a b => a ≤ b) ids

/-- Loop body of `_validate_decisions` in `llm/langchain_search.py`:
walks the decisions accumulating the `seen_ids` set (modelled as a
list queried by membership), raising on an unknown or duplicated id. -/
def validateDecisionsAux (expected : List String) :
    List SearchFilterDecision → List String → Except Exc (List String)
  | [], seen => .ok seen
  | d :: rest, seen =>
    if d.node_id ∉ expected then
      .error ⟨.configurationError,
        "검색 필터 LLM 응답 node_id가 후보 집합에 없습니다: " ++ d.node_id⟩
    else if d.node_id ∈ seen then
      .error ⟨.configurationError,
        "검색 필터 LLM 응답 node_id가 중복되었습니다: " ++ d.node_id⟩
    else
      validateDecisionsAux expected rest (d.node_id :: seen)

/-- Decision validation of the filter adapter (`_validate_decisions`):
every decision id must be an input candidate id, no id may repeat, and
no candidate id may be missing. -/
def validateDecisions (candidates : List SearchFilterCandidate)
    (decisions : List SearchFilterDecision) : Except Exc Unit :=
  match validateDecisionsAux (candidateIds candidates) decisions [] with
  | .error e => .error e
  | .ok seen =>
    if sortedIds (((candidateIds candidates).dedup).filter
        (fun x => x ∉ seen)) ≠ [] then
      .error ⟨.configurationError,
        "검색 필터 LLM 응답 누락 node_id: " ++ String.intercalate ", "
          (sortedIds (((candidateIds candidates).dedup).filter
            (fun x => x ∉ seen)))⟩
    else
      .ok ()

/-- Loop body of `_to_decision_map` in `search/engine.py`: builds the
id-to-decision dict (modelled as an insertion-ordered association
list), raising on an unknown or duplicated id. -/
def toDecisionMapAux (expected : List String) :
    List SearchFilterDecision → List (String × SearchFilterDecision) →
    Except Exc (List (String × SearchFilterDecision))
  | [], mapped => .ok mapped
  | d :: rest, mapped =>
    if d.node_id ∉ expected then
      .error ⟨.jobFailedError,
        "검색 필터 응답 node_id가 후보 집합에 없습니다: " ++ d.node_id⟩
    else if d.node_id ∈ mapped.map Prod.fst then
      .error ⟨.jobFailedError,
        "검색 필터 응답 node_id가 중복되었습니다: " ++ d.node_id⟩
    else
      toDecisionMapAux expected rest (mapped ++ [(d.node_id, d)])

/-- Engine-side decision-map construction (`_to_decision_map`):
the same validation as `_validate_decisions`, returning the map. -/
def toDecisionMap (candidates : List SearchFilterCandidate)
    (decisions : List SearchFilterDecision) :
    Except Exc (List (String × SearchFilterDecision)) :=
  match toDecisionMapAux (candidateIds candidates) decisions [] with
  | .error e => .error e
  | .ok mapped =>
    if sortedIds (((candidateIds candidates).dedup).filter
        (fun x => x ∉ mapped.map Prod.fst)) ≠ [] then
      .error ⟨.jobFailedError,
        "검색 필터 응답에 누락된 node_id가 있습니다: " ++
          String.intercalate ", "
            (sortedIds (((candidateIds candidates).dedup).filter
              (fun x => x ∉ mapped.map Prod.fst)))⟩
    else
      .ok mapped

/-- Relevance-judge oracle: stands for the chat-model call plus JSON
parsing and per-item `model_validate` in
`LangChainSearchFilterLLM.filter`; an error models a malformed reply
(raised as `ConfigurationError`). -/
def JudgeOracle : Type :=
  String → List SearchFilterCandidate → Except Exc (List SearchFilterDecision)

/-- The filter adapter (`LangChainSearchFilterLLM.filter`): obtains the
decisions from the judge, then applies `_validate_decisions`. -/
def llmFilterRun (judge : JudgeOracle) (question : String)
    (candidates : List SearchFilterCandidate) :
    Except Exc (List SearchFilterDecision) :=
  match judge question candidates with
  | .error e => .error e
  | .ok decisions =>
    match validateDecisions candidates decisions with
    | .error e => .error e
    | .ok _ => .ok decisions

/-- Parsed worker payload fields consumed by `_build_filtered_result`
(`payload["question"]`, `payload["top_k"]`, `payload["job_id"]`). -/
structure PayloadDict where
  job_id : String
  question : String
  top_k : Nat
  deriving DecidableEq, Repr

/-- Raw metrics dict of the Rust bridge result, after the `int(...)`
conversions of `_build_filtered_result`. -/
structure RawMetrics where
  entry_count : Nat
  page_count : Nat
  elapsed_ms : Nat
  deriving DecidableEq, Repr

/-- Result of `RustRuntimeBridge.execute_search_job`.  `none` in
`candidates` models a non-list `candidates` value (or a per-item
`model_validate` failure); `none` in `metrics` models a non-dict
`metrics` value.  Both raise inside the worker's try block. -/
structure RustResult where
  candidates : Option (List SearchCandidate)
  metrics : Option RawMetrics
  deriving Repr

/-- Post-filter sort order of `_build_filtered_result`: the Python sort
key `(-score, path)`, i.e. score descending then path ascending. -/
def candLe (a b : SearchCandidate) : Prop :=
  b.score < a.score ∨ (a.score = b.score ∧ a.path ≤ b.path)

instance : DecidableRel candLe := fun a b => by
  unfold candLe; infer_instance

instance : IsTotal SearchCandidate candLe where
  total a b := by
    unfold candLe
    rcases lt_trichotomy a.score b.score with h | h | h
    · exact Or.inr (Or.inl h)
    · rcases le_total a.path b.path with hp | hp
      · exact Or.inl (Or.inr ⟨h, hp⟩)
      · exact Or.inr (Or.inr ⟨h.symm, hp⟩)
    · exact Or.inl (Or.inl h)

instance : IsTrans SearchCandidate candLe where
  trans a b c hab hbc := by
    unfold candLe at hab hbc ⊢
    rcases hab with hab | ⟨hab, hab2⟩ <;> rcases hbc with hbc | ⟨hbc, hbc2⟩
    · exact Or.inl (hbc.trans hab)
    · exact Or.inl (hbc ▸ hab)
    · exact Or.inl (hab ▸ hbc)
    · exact Or.inr ⟨hab.trans hbc, hab2.trans hbc2⟩

/-- The keep loop of `_build_filtered_result`: looks each candidate's
decision up in the map (a missing key would raise `KeyError`, which the
worker's catch-all also treats as a pipeline failure) and keeps it with
the decision's reason when `keep` is true. -/
def applyDecisions (dmap : List (String × SearchFilterDecision)) :
    List SearchCandidate → Except Exc (List SearchCandidate)
  | [] => .ok []
  | c :: rest =>
    match dmap.lookup c.node_id with
    | none => .error ⟨.keyError, c.node_id⟩
    | some d =>
      match applyDecisions dmap rest with
      | .error e => .error e
      | .ok tail =>
        if d.keep then
          .ok ({ node_id := c.node_id
                 path := c.path
                 score := c.score
                 content := c.content
                 image_url := c.image_url
                 reason := d.reason } :: tail)
        else
          .ok tail

/-- Builds the filtered result dict
(`VTreeSearchEngine._build_filtered_result`): with no candidates the
filter is skipped and an empty result with `kept_count = 0` is
returned; otherwise the judge's decisions are validated, kept
candidates are re-tagged with the decision reasons, sorted by
`(-score, path)` and truncated to `top_k`.  Python's stable sort is
modelled by insertion sort, which produces the same list for any total
preorder. -/
def buildFilteredResult (judge : JudgeOracle) (payload : PayloadDict)
    (rust : RustResult) : Except Exc ResultDict :=
  match rust.candidates with
  | none => .error ⟨.jobFailedError, "Rust 검색 결과 candidates가 배열이 아닙니다"⟩
  | some candidates =>
    if candidates.isEmpty then
      match rust.metrics with
      | none => .error ⟨.jobFailedError, "Rust 검색 결과 metrics가 객체가 아닙니다"⟩
      | some m =>
        .ok { job_id := payload.job_id
              candidates := []
              metrics :=
                { entry_count := m.entry_count
                  page_count := m.page_count
                  kept_count := 0
                  elapsed_ms := m.elapsed_ms } }
    else
      let filterCands := candidates.map
        (fun c => { node_id := c.node_id, content := c.content : SearchFilterCandidate })
      match llmFilterRun judge payload.question filterCands with
      | .error e => .error e
      | .ok decisions =>
        match toDecisionMap filterCands decisions with
        | .error e => .error e
        | .ok dmap =>
          match applyDecisions dmap candidates with
          | .error e => .error e
          | .ok kept0 =>
            let sorted := List.insertionSort candLe kept0
            let final := if sorted.length > payload.top_k then
              sorted.take payload.top_k else sorted
            match rust.metrics with
            | none =>
              .error ⟨.jobFailedError, "Rust 검색 결과 metrics가 객체가 아닙니다"⟩
            | some m =>
              .ok { job_id := payload.job_id
                    candidates := final
                    metrics :=
                      { entry_count := m.entry_count
                        page_count := m.page_count
                        kept_count := final.length
                        elapsed_ms := m.elapsed_ms } }

/-- Observable worker actions that do not change the modelled Redis
state: `XACK` of the in-hand message and the backoff sleep. -/
inductive Effect where
  | ack
  | sleepMs (ms : Nat)
  deriving DecidableEq, Repr

/-- The worker's try block in `_process_message`: `json.loads` of the
payload (oracle `parsePayload`; `none` models a `JSONDecodeError`),
the Rust bridge call (oracle `execute`), then
`_build_filtered_result`. -/
def runAttempt (parsePayload : String → Option PayloadDict)
    (execute : PayloadDict → Except Exc RustResult) (judge : JudgeOracle)
    (payload_json : String) : Except Exc ResultDict :=
  match parsePayload payload_json with
  | none => .error ⟨.jsonDecodeError, "payload JSON 파싱 실패"⟩
  | some payload =>
    match execute payload with
    | .error e => .error e
    | .ok rust => buildFilteredResult judge payload rust

/-- One worker step on a dequeued message
(`VTreeSearchEngine._process_message`).  Oracles as in `runAttempt`,
plus `dumps` for `json.dumps` of a successful result and `trim` for the
re-enqueue path.  Returns the resulting Redis state and the effect
list.  The message `retries` fallback chain collapses to the message
field because enqueue always writes it; likewise
`record.get("module_name", ...)` collapses to the record field written
by `create_job_record`.  The backoff exponent `max(0, next - 1)` equals
the truncated subtraction `next - 1` on naturals. -/
def processMessage (cfg : SearchConfig) (trim : List StreamMsg → List StreamMsg)
    (parsePayload : String → Option PayloadDict)
    (execute : PayloadDict → Except Exc RustResult) (judge : JudgeOracle)
    (dumps : ResultDict → String) (now : String) (s : RedisState)
    (m : StreamMsg) : RedisState × List Effect :=
  if m.job_id = "" then (s, [.ack])
  else
    match getJobRecord s m.job_id with
    | none => (s, [.ack])
    | some record =>
      if record.canceled then (markCanceled s m.job_id now, [.ack])
      else
        let retries := m.retries
        let s1 := markRunning s m.job_id retries now
        let payload_json := if m.payload_json ≠ "" then m.payload_json
          else record.payload_json
        if payload_json = "" then
          let s2 := markFailed s1 m.job_id "payload_json이 비어 있습니다" retries now
          let s3 := moveToDlq s2 m "payload_json-empty" now
          (s3, [.ack])
        else
          match runAttempt parsePayload execute judge payload_json with
          | .ok result =>
            (markSucceeded s1 m.job_id (dumps result) now, [.ack])
          | .error exc =>
            let next := retries + 1
            let error_message := exc.msg
            if next ≤ cfg.max_retries then
              let backoff := min (cfg.retry_base_ms * 2 ^ (next - 1)) cfg.retry_max_ms
              let s2 := markPendingRetry s1 m.job_id next error_message now
              let s3 := enqueue cfg.redis trim s2 m.job_id payload_json next
                record.module_name now
              (s3, [.sleepMs backoff, .ack])
            else
              let s2 := markFailed s1 m.job_id error_message next now
              let s3 := moveToDlq s2 m error_message now
              (s3, [.ack])

/-! Concrete fixtures used by witnesses and counterexamples. -/

/-- Witness configuration: `embedding_dim = 4`, a queue capped at 2
with rejection from depth 1, `max_retries = 3`,
`retry_base_ms = 100`, `retry_max_ms = 1000`. -/
def cfgW : SearchConfig :=
  { postgres := { embedding_dim := 4 }
    redis :=
      { module_name_search := "VtreeSearch"
        stream_search := "search:jobs"
        stream_search_dlq := "search:jobs:dlq"
        consumer_group := "vtree-search-group"
        queue_max_len := 2
        queue_reject_at := 1
        result_ttl_sec := 900
        worker_block_ms := 1000 }
    worker_concurrency := 4
    max_retries := 3
    retry_base_ms := 100
    retry_max_ms := 1000
    entry_limit := 3
    page_limit := 50 }

/-- A stream message for job `j0`. -/
def msgW : StreamMsg :=
  { job_id := "j0", payload_json := "pj", retries := 0
    module_name := "VtreeSearch", enqueued_at := "t0" }

/-- A Redis state whose main stream already holds one message, so its
depth reaches `cfgW`'s rejection threshold. -/
def sW : RedisState :=
  { stream := [msgW], jobs := fun _ => none, dlq := [] }

/-- A FAILED job record for job `jf` carrying `last_error = "boom"`. -/
def recFailedW : JobRecord :=
  { job_id := "jf", state := "FAILED", retries := 1, canceled := false
    created_at := "t0", updated_at := "t1", module_name := "VtreeSearch"
    payload_json := "pj", last_error := "boom", result_json := ""
    completed_at := "t1" }

/-- Redis state holding only the FAILED record `recFailedW`. -/
def sFailedW : RedisState :=
  { stream := [], jobs := fun k => if k = "jf" then some recFailedW else none
    dlq := [] }

/-- A RUNNING job record for job `jr`. -/
def recRunW : JobRecord :=
  { job_id := "jr", state := "RUNNING", retries := 0, canceled := false
    created_at := "t0", updated_at := "t1", module_name := "VtreeSearch"
    payload_json := "pj", last_error := "", result_json := ""
    completed_at := "" }

/-- Redis state holding only the RUNNING record `recRunW`. -/
def sRunW : RedisState :=
  { stream := [], jobs := fun k => if k = "jr" then some recRunW else none
    dlq := [] }

/-- A SUCCEEDED record for job `js` whose `result_json` is empty. -/
def recSuccEmptyW : JobRecord :=
  { job_id := "js", state := "SUCCEEDED", retries := 0, canceled := false
    created_at := "t0", updated_at := "t1", module_name := "VtreeSearch"
    payload_json := "pj", last_error := "", result_json := ""
    completed_at := "t1" }

/-- Redis state holding only `recSuccEmptyW`. -/
def sSuccEmptyW : RedisState :=
  { stream := [], jobs := fun k => if k = "js" then some recSuccEmptyW else none
    dlq := [] }

/-- A PENDING job record for job `jp`. -/
def recPendW : JobRecord :=
  { job_id := "jp", state := "PENDING", retries := 0, canceled := false
    created_at := "t0", updated_at := "t0", module_name := "VtreeSearch"
    payload_json := "pj", last_error := "", result_json := ""
    completed_at := "" }

/-- The stream message of job `jp`. -/
def msgPendW : StreamMsg :=
  { job_id := "jp", payload_json := "pj", retries := 0
    module_name := "VtreeSearch", enqueued_at := "t0" }

/-- Redis state holding only `recPendW`, with its message in stream. -/
def sPendW : RedisState :=
  { stream := [msgPendW]
    jobs := fun k => if k = "jp" then some recPendW else none
    dlq := [] }

/-- A failing payload parse oracle and always-failing bridge used by
the retry and failure witnesses: executing the pipeline raises "boom". -/
def execBoom : PayloadDict → Except Exc RustResult :=
  fun _ => .error ⟨.jobFailedError, "boom"⟩

/-- Payload parse oracle that always yields the fixed payload of job
`jp`. -/
def parsePendW : String → Option PayloadDict :=
  fun _ => some { job_id := "jp", question := "q", top_k := 3 }

/-- The configuration `cfgW` with a zero retry budget, so the first
failure is terminal. -/
def cfgMR0 : SearchConfig :=
  { cfgW with max_retries := 0 }

/-- Specification-side description of the kept candidates: each input
candidate whose decision (the first decision carrying its id) has
`keep = true`, re-tagged with that decision's reason, in input order. -/
def keptSpec (cs : List SearchCandidate)
    (decs : List SearchFilterDecision) : List SearchCandidate :=
  cs.filterMap (fun c =>
    match decs.find? (fun d => d.node_id == c.node_id) with
    | some d => if d.keep then some { c with reason := d.reason } else none
    | none => none)

/-- A pre-filter candidate with score 0 for job `j5`. -/
def candA : SearchCandidate :=
  { node_id := "a", path := "p1", score := 0, content := "x",
    image_url := none, reason := "" }

/-- A pre-filter candidate with score 1 for job `j5`. -/
def candB : SearchCandidate :=
  { node_id := "b", path := "p2", score := 1, content := "y",
    image_url := none, reason := "" }

/-- A Rust bridge result carrying the two candidates and metrics
`entry_count = 2`, `page_count = 2`, `elapsed_ms = 5`. -/
def rustCandsW : RustResult :=
  { candidates := some [candA, candB], metrics := some ⟨2, 2, 5⟩ }

/-- Keep-everything decisions for the two candidates. -/
def decsKeepW : List SearchFilterDecision :=
  [⟨"a", true, "ra"⟩, ⟨"b", true, "rb"⟩]

/-- Worker payload with `top_k = 1`. -/
def payloadTop1W : PayloadDict :=
  { job_id := "j5", question := "q", top_k := 1 }

/-- The higher-scored candidate with the judge's reason attached. -/
def candBKept : SearchCandidate :=
  { node_id := "b", path := "p2", score := 1, content := "y",
    image_url := none, reason := "rb" }

/-- The expected filtered result: the higher-scored candidate only,
with the judge's reason, and `kept_count = 1`. -/
def resTop1W : ResultDict :=
  { job_id := "j5"
    candidates := [candBKept]
    metrics :=
      { entry_count := 2, page_count := 2, kept_count := 1,
        elapsed_ms := 5 } }

/-- Shorthand for the cons equation of `decisionIds`. -/
theorem decisionIds_cons (d : SearchFilterDecision)
    (rest : List SearchFilterDecision) :
    decisionIds (d :: rest) = d.node_id :: decisionIds rest := rfl

/-- C1: when input validation passes and the observed queue depth is at
least `queue_reject_at`, `submit_search` fails with the queue-overloaded
error and leaves the Redis state untouched (no job hash written, nothing
appended to the stream); conversely a successful submission implies the
observed depth was below the threshold. -/
theorem C1_submit_backpressure (cfg : SearchConfig)
    (trim : List StreamMsg → List StreamMsg)
    (dumpPayload : SearchSubmission → String) (jobId now : String)
    (s : RedisState) (qt : String) (emb : List Rat) (top_k : Nat)
    (md : Option String) (htop : 1 ≤ top_k)
    (hemb : emb.length = cfg.postgres.embedding_dim) :
    (cfg.redis.queue_reject_at ≤ queueDepth s →
      ∃ msg, submitSearch cfg trim dumpPayload jobId now s qt emb top_k md =
        (.error ⟨.queueOverloadedError, msg⟩, s)) ∧
    (∀ a s2, submitSearch cfg trim dumpPayload jobId now s qt emb top_k md =
        (.ok a, s2) → queueDepth s < cfg.redis.queue_reject_at) := by
  constructor
  · intro hdepth
    refine ⟨"큐 포화 상태입니다: depth=" ++ toString (queueDepth s)
      ++ ", reject_at=" ++ toString cfg.redis.queue_reject_at, ?_⟩
    unfold submitSearch
    rw [if_neg (Nat.not_lt.mpr htop), if_neg (fun hne => hne hemb)]
    unfold guardCapacity
    rw [if_pos hdepth]
  · intro a s2 hok
    by_contra hge
    push_neg at hge
    unfold submitSearch at hok
    rw [if_neg (Nat.not_lt.mpr htop), if_neg (fun hne => hne hemb)] at hok
    unfold guardCapacity at hok
    rw [if_pos hge] at hok
    simp at hok

/-- Witness for C1 at a concrete overloaded state. -/
theorem C1_submit_backpressure_witness :
    1 ≤ 3 ∧ ([(0 : Rat), 0, 0, 0].length = cfgW.postgres.embedding_dim) ∧
    cfgW.redis.queue_reject_at ≤ queueDepth sW ∧
    ∃ msg, submitSearch cfgW id (fun _ => "pj") "jid" "t1" sW "q"
        [(0 : Rat), 0, 0, 0] 3 none = (.error ⟨.queueOverloadedError, msg⟩, sW) :=
  ⟨by decide, by decide, by decide,
    (C1_submit_backpressure cfgW id (fun _ => "pj") "jid" "t1" sW "q"
      [(0 : Rat), 0, 0, 0] 3 none (by decide) (by decide)).1 (by decide)⟩

/-- C6: `fetch_result` raises job-expired when the record is absent,
job-failed carrying `last_error` when the state is FAILED, a not-ready
job-failed error naming the non-terminal state when the state is
PENDING or RUNNING (a branch disjoint from the FAILED one), and for a
SUCCEEDED record whose `result_json` decodes it returns the decoded
payload stamped with state SUCCEEDED and the record's `completed_at`. -/
theorem C6_fetch_result_cases (parse : String → Option ResultDict)
    (s : RedisState) (job_id now : String) :
    (getJobRecord s job_id = none →
      fetchResult parse s job_id now = .error ⟨.jobExpiredError,
        "job_id=" ++ job_id ++ " 결과가 만료되었거나 존재하지 않습니다"⟩) ∧
    (∀ r, getJobRecord s job_id = some r → r.state = "FAILED" →
      r.last_error ≠ "" →
      fetchResult parse s job_id now = .error ⟨.jobFailedError, r.last_error⟩) ∧
    (∀ r, getJobRecord s job_id = some r →
      (r.state = "PENDING" ∨ r.state = "RUNNING") →
      fetchResult parse s job_id now = .error ⟨.jobFailedError,
        "job_id=" ++ job_id ++ " 상태가 SUCCEEDED가 아닙니다: " ++ r.state⟩) ∧
    (∀ r p, getJobRecord s job_id = some r → r.state = "SUCCEEDED" →
      r.result_json ≠ "" → parse r.result_json = some p →
      r.completed_at ≠ "" →
      validResult
        { job_id := p.job_id, state := "SUCCEEDED", candidates := p.candidates,
          metrics := p.metrics, completed_at := r.completed_at } →
      fetchResult parse s job_id now = .ok
        { job_id := p.job_id, state := "SUCCEEDED", candidates := p.candidates,
          metrics := p.metrics, completed_at := r.completed_at }) := by
  refine ⟨?_, ?_, ?_, ?_⟩
  · intro hnone
    unfold fetchResult
    rw [hnone]
  · intro r hr hstate hne
    unfold fetchResult
    rw [hr]
    simp [hstate, hne]
  · intro r hr hstate
    unfold fetchResult
    rw [hr]
    rcases hstate with h | h <;> simp [h]
  · intro r p hr hstate hjson hparse hcomp hval
    unfold fetchResult
    rw [hr]
    simp only [hstate]
    rw [if_neg (by decide), if_neg (by decide), if_neg hjson, hparse]
    simp [hcomp, hval]

/-- Witness for C6 at the concrete FAILED record. -/
theorem C6_fetch_result_cases_witness :
    getJobRecord sFailedW "jf" = some recFailedW ∧
    recFailedW.state = "FAILED" ∧ recFailedW.last_error ≠ "" ∧
    fetchResult (fun _ => none) sFailedW "jf" "t2" =
      .error ⟨.jobFailedError, "boom"⟩ :=
  ⟨by decide, by decide, by decide,
    (C6_fetch_result_cases (fun _ => none) sFailedW "jf" "t2").2.1 recFailedW
      (by decide) (by decide) (by decide)⟩

/-- C9: canceling a RUNNING job returns a view claiming CANCELED while
writing only `canceled = 1` (and `updated_at`) to the hash — every
other field, every other job, and both streams are untouched — so an
immediately following `get_job` reports state RUNNING with
`canceled = true`, diverging from the response's CANCELED. -/
theorem C9_cancel_running_divergence (s : RedisState) (job_id now : String)
    (r : JobRecord) (hr : getJobRecord s job_id = some r)
    (hstate : r.state = "RUNNING") (hjid : job_id ≠ "") (hnow : now ≠ "") :
    (cancelJob s job_id now).1 = .ok
      { job_id := job_id, state := "CANCELED",
        message := "취소 요청이 접수되었습니다" } ∧
    (cancelJob s job_id now).2.jobs job_id =
      some { r with canceled := true, updated_at := now } ∧
    (∀ k, k ≠ job_id → (cancelJob s job_id now).2.jobs k = s.jobs k) ∧
    (cancelJob s job_id now).2.stream = s.stream ∧
    (cancelJob s job_id now).2.dlq = s.dlq ∧
    getJob (cancelJob s job_id now).2 job_id = .ok
      { job_id := job_id, state := "RUNNING", retries := r.retries,
        canceled := true, updated_at := now,
        last_error := if r.last_error = "" then none else some r.last_error } := by
  have hcancel : cancelJob s job_id now =
      (.ok
        { job_id := job_id, state := "CANCELED",
          message := "취소 요청이 접수되었습니다" },
       markCancelRequested s job_id now) := by
    unfold cancelJob
    rw [hr]
    simp [hstate]
  have hr2 : s.jobs job_id = some r := hr
  have hjobs : (markCancelRequested s job_id now).jobs job_id =
      some { r with canceled := true, updated_at := now } := by
    unfold markCancelRequested updateJobRecord
    rw [hr2]
    simp
  refine ⟨by rw [hcancel], by rw [hcancel]; exact hjobs, ?_, ?_, ?_, ?_⟩
  · intro k hk
    rw [hcancel]
    unfold markCancelRequested updateJobRecord
    simp [hk]
  · rw [hcancel]
    unfold markCancelRequested updateJobRecord
    rfl
  · rw [hcancel]
    unfold markCancelRequested updateJobRecord
    rfl
  · rw [hcancel]
    unfold getJob getJobRecord
    rw [hjobs]
    simp [validStatus, isJobState, hjid, hnow, hstate]

/-- Witness for C9 at the concrete RUNNING record. -/
theorem C9_cancel_running_divergence_witness :
    getJobRecord sRunW "jr" = some recRunW ∧ recRunW.state = "RUNNING" ∧
    (cancelJob sRunW "jr" "t2").1 = .ok
      { job_id := "jr", state := "CANCELED",
        message := "취소 요청이 접수되었습니다" } ∧
    getJob (cancelJob sRunW "jr" "t2").2 "jr" = .ok
      { job_id := "jr", state := "RUNNING", retries := 0, canceled := true,
        updated_at := "t2", last_error := none } :=
  ⟨by decide, by decide,
    (C9_cancel_running_divergence sRunW "jr" "t2" recRunW (by decide)
      (by decide) (by decide) (by decide)).1,
    (C9_cancel_running_divergence sRunW "jr" "t2" recRunW (by decide)
      (by decide) (by decide) (by decide)).2.2.2.2.2⟩

/-- C10: for a SUCCEEDED record whose `result_json` is empty or fails
to parse, `fetch_result` raises job-failed instead of returning, and a
returned result is only possible when the record's `result_json` is
non-empty and parses. -/
theorem C10_fetch_result_requires_parse (parse : String → Option ResultDict)
    (s : RedisState) (job_id now : String) :
    (∀ r, getJobRecord s job_id = some r → r.state = "SUCCEEDED" →
      (r.result_json = "" ∨ parse r.result_json = none) →
      ∃ msg, fetchResult parse s job_id now = .error ⟨.jobFailedError, msg⟩) ∧
    (∀ res, fetchResult parse s job_id now = .ok res →
      ∃ r p, getJobRecord s job_id = some r ∧ r.result_json ≠ "" ∧
        parse r.result_json = some p) := by
  constructor
  · intro r hr hstate hbad
    unfold fetchResult
    rw [hr]
    simp only [hstate]
    rw [if_neg (by decide), if_neg (by decide)]
    rcases hbad with h | h
    · exact ⟨_, by rw [if_pos h]⟩
    · by_cases hempty : r.result_json = ""
      · exact ⟨_, by rw [if_pos hempty]⟩
      · exact ⟨_, by rw [if_neg hempty, h]⟩
  · intro res h
    unfold fetchResult at h
    split at h
    · simp at h
    · rename_i r hrec
      split_ifs at h with h1 h2 h3
      all_goals
        first
        | exact Except.noConfusion h
        | (cases hp : parse r.result_json with
            | none => rw [hp] at h; exact absurd h (by simp)
            | some p => exact ⟨r, p, hrec, h3, hp⟩)

/-- Witness for C10 at the concrete SUCCEEDED record with empty
`result_json`. -/
theorem C10_fetch_result_requires_parse_witness :
    getJobRecord sSuccEmptyW "js" = some recSuccEmptyW ∧
    recSuccEmptyW.state = "SUCCEEDED" ∧ recSuccEmptyW.result_json = "" ∧
    ∃ msg, fetchResult (fun _ => none) sSuccEmptyW "js" "t2" =
      .error ⟨.jobFailedError, msg⟩ :=
  ⟨by decide, by decide, by decide,
    (C10_fetch_result_requires_parse (fun _ => none) sSuccEmptyW "js" "t2").1
      recSuccEmptyW (by decide) (by decide) (Or.inl (by decide))⟩

/-- C8: when the pipeline produced zero candidates,
`_build_filtered_result` returns the empty candidate list with
`kept_count = 0` and `entry_count`, `page_count`, `elapsed_ms` taken
unchanged from the pipeline metrics; the result does not depend on the
relevance judge at all (the filter is not invoked). -/
theorem C8_empty_candidates_skip_filter (judge : JudgeOracle)
    (payload : PayloadDict) (rust : RustResult) (m : RawMetrics)
    (hcands : rust.candidates = some []) (hm : rust.metrics = some m) :
    buildFilteredResult judge payload rust = .ok
      { job_id := payload.job_id, candidates := []
        metrics :=
          { entry_count := m.entry_count, page_count := m.page_count,
            kept_count := 0, elapsed_ms := m.elapsed_ms } } ∧
    ∀ judge2 : JudgeOracle,
      buildFilteredResult judge2 payload rust =
        buildFilteredResult judge payload rust := by
  have key : ∀ j : JudgeOracle, buildFilteredResult j payload rust = .ok
      { job_id := payload.job_id, candidates := []
        metrics :=
          { entry_count := m.entry_count, page_count := m.page_count,
            kept_count := 0, elapsed_ms := m.elapsed_ms } } := by
    intro j
    unfold buildFilteredResult
    rw [hcands]
    simp [hm]
  exact ⟨key judge, fun judge2 => by rw [key judge2, key judge]⟩

/-- Witness for C8 with concrete metrics `entry_count = 2`,
`page_count = 6`, `elapsed_ms = 5`. -/
theorem C8_empty_candidates_skip_filter_witness :
    (RustResult.mk (some []) (some ⟨2, 6, 5⟩)).candidates = some [] ∧
    buildFilteredResult (fun _ _ => .ok []) ⟨"j8", "q", 3⟩
        (RustResult.mk (some []) (some ⟨2, 6, 5⟩)) = .ok
      { job_id := "j8", candidates := []
        metrics :=
          { entry_count := 2, page_count := 6, kept_count := 0,
            elapsed_ms := 5 } } :=
  ⟨rfl,
    (C8_empty_candidates_skip_filter (fun _ _ => .ok []) ⟨"j8", "q", 3⟩
      (RustResult.mk (some []) (some ⟨2, 6, 5⟩)) ⟨2, 6, 5⟩ rfl rfl).1⟩

/-- C7: canceling a PENDING job makes a subsequent status read show
CANCELED with the cancel flag set; if the worker later dequeues the
job's message it takes the canceled branch — the whole step is exactly
the idempotent CANCELED re-mark plus an ACK, so the job is never marked
RUNNING and CANCELED is never overwritten with SUCCEEDED (the final
record state stays CANCELED, only its timestamps move to the worker's
clock). -/
theorem C7_cancel_pending_then_dequeue (cfg : SearchConfig)
    (trim : List StreamMsg → List StreamMsg)
    (parse : String → Option PayloadDict)
    (exec : PayloadDict → Except Exc RustResult) (judge : JudgeOracle)
    (dumps : ResultDict → String) (s : RedisState) (job_id now1 now2 : String)
    (r : JobRecord) (hjid : job_id ≠ "") (hnow1 : now1 ≠ "")
    (hr : getJobRecord s job_id = some r) (hstate : r.state = "PENDING") :
    (cancelJob s job_id now1).1 = .ok
      { job_id := job_id, state := "CANCELED",
        message := "취소 요청이 접수되었습니다" } ∧
    getJob (cancelJob s job_id now1).2 job_id = .ok
      { job_id := job_id, state := "CANCELED", retries := r.retries,
        canceled := true, updated_at := now1,
        last_error := if r.last_error = "" then none else some r.last_error } ∧
    ∀ msg : StreamMsg, msg.job_id = job_id →
      processMessage cfg trim parse exec judge dumps now2
          (cancelJob s job_id now1).2 msg =
        (markCanceled (cancelJob s job_id now1).2 job_id now2, [Effect.ack]) ∧
      (processMessage cfg trim parse exec judge dumps now2
          (cancelJob s job_id now1).2 msg).1.jobs job_id = some
        { r with
          state := "CANCELED", canceled := true,
          updated_at := now2, completed_at := now2 } := by
  have hr2 : s.jobs job_id = some r := hr
  have hcancel : cancelJob s job_id now1 =
      (.ok
        { job_id := job_id, state := "CANCELED",
          message := "취소 요청이 접수되었습니다" },
       markCanceled (markCancelRequested s job_id now1) job_id now1) := by
    unfold cancelJob
    rw [hr]
    simp [hstate]
  have hjobs : (cancelJob s job_id now1).2.jobs job_id = some
      { r with
        state := "CANCELED", canceled := true,
        updated_at := now1, completed_at := now1 } := by
    rw [hcancel]
    unfold markCanceled markCancelRequested updateJobRecord
    rw [hr2]
    simp
  refine ⟨by rw [hcancel], ?_, ?_⟩
  · unfold getJob getJobRecord
    rw [hjobs]
    simp [validStatus, isJobState, hjid, hnow1]
  · intro msg hmsg
    have hstep : processMessage cfg trim parse exec judge dumps now2
        (cancelJob s job_id now1).2 msg =
        (markCanceled (cancelJob s job_id now1).2 job_id now2, [Effect.ack]) := by
      unfold processMessage
      rw [hmsg, if_neg hjid]
      unfold getJobRecord
      rw [hjobs]
      simp
    refine ⟨hstep, ?_⟩
    rw [hstep]
    unfold markCanceled updateJobRecord
    rw [hjobs]
    simp

/-- Witness for C7 at the concrete PENDING record. -/
theorem C7_cancel_pending_then_dequeue_witness :
    getJobRecord sPendW "jp" = some recPendW ∧ recPendW.state = "PENDING" ∧
    getJob (cancelJob sPendW "jp" "t1").2 "jp" = .ok
      { job_id := "jp", state := "CANCELED", retries := 0, canceled := true,
        updated_at := "t1", last_error := none } :=
  ⟨by decide, by decide,
    (C7_cancel_pending_then_dequeue cfgW id (fun _ => none)
      (fun _ => .error ⟨.jobFailedError, "e"⟩) (fun _ _ => .ok [])
      (fun _ => "") sPendW "jp" "t1" "t2" recPendW (by decide) (by decide)
      (by decide) (by decide)).2.1⟩

/-- On a failed attempt still within the retry budget, the worker step
reduces to mark-pending-retry, re-enqueue, sleep, ACK. -/
theorem processMessage_retry_eq (cfg : SearchConfig)
    (trim : List StreamMsg → List StreamMsg)
    (parse : String → Option PayloadDict)
    (exec : PayloadDict → Except Exc RustResult) (judge : JudgeOracle)
    (dumps : ResultDict → String) (now : String) (s : RedisState)
    (m : StreamMsg) (r : JobRecord) (exc : Exc) (hjid : m.job_id ≠ "")
    (hr2 : s.jobs m.job_id = some r) (hcanc : r.canceled = false)
    (hpl : m.payload_json ≠ "")
    (hfail : runAttempt parse exec judge m.payload_json = .error exc)
    (hnext : m.retries + 1 ≤ cfg.max_retries) :
    processMessage cfg trim parse exec judge dumps now s m =
      (enqueue cfg.redis trim
        (markPendingRetry (markRunning s m.job_id m.retries now) m.job_id
          (m.retries + 1) exc.msg now)
        m.job_id m.payload_json (m.retries + 1) r.module_name now,
       [Effect.sleepMs (min (cfg.retry_base_ms * 2 ^ (m.retries + 1 - 1))
          cfg.retry_max_ms), Effect.ack]) := by
  unfold processMessage
  rw [if_neg hjid]
  unfold getJobRecord
  rw [hr2]
  simp only [hcanc, Bool.false_eq_true, if_false, ite_false]
  rw [if_pos hpl]
  rw [if_neg (by simpa using hpl)]
  simp only [hfail]
  rw [if_pos hnext]

/-- On a failed attempt that exhausts the retry budget, the worker step
reduces to mark-failed, DLQ copy, ACK. -/
theorem processMessage_fail_eq (cfg : SearchConfig)
    (trim : List StreamMsg → List StreamMsg)
    (parse : String → Option PayloadDict)
    (exec : PayloadDict → Except Exc RustResult) (judge : JudgeOracle)
    (dumps : ResultDict → String) (now : String) (s : RedisState)
    (m : StreamMsg) (r : JobRecord) (exc : Exc) (hjid : m.job_id ≠ "")
    (hr2 : s.jobs m.job_id = some r) (hcanc : r.canceled = false)
    (hpl : m.payload_json ≠ "")
    (hfail : runAttempt parse exec judge m.payload_json = .error exc)
    (hnext : cfg.max_retries < m.retries + 1) :
    processMessage cfg trim parse exec judge dumps now s m =
      (moveToDlq
        (markFailed (markRunning s m.job_id m.retries now) m.job_id exc.msg
          (m.retries + 1) now)
        m exc.msg now, [Effect.ack]) := by
  unfold processMessage
  rw [if_neg hjid]
  unfold getJobRecord
  rw [hr2]
  simp only [hcanc, Bool.false_eq_true, if_false, ite_false]
  rw [if_pos hpl]
  rw [if_neg (by simpa using hpl)]
  simp only [hfail]
  rw [if_neg (by omega)]

/-- A record held by a state after mark-running then mark-pending-retry. -/
theorem jobs_after_pending_retry (s : RedisState) (j : String) (r : JobRecord)
    (hr2 : s.jobs j = some r) (ret n : Nat) (e now : String) :
    (markPendingRetry (markRunning s j ret now) j n e now).jobs j = some
      { r with
        state := "PENDING", retries := n, last_error := e,
        updated_at := now } := by
  unfold markPendingRetry markRunning updateJobRecord
  rw [hr2]
  simp

/-- A record held by a state after mark-running then mark-failed. -/
theorem jobs_after_failed (s : RedisState) (j : String) (r : JobRecord)
    (hr2 : s.jobs j = some r) (ret n : Nat) (e now : String) :
    (markFailed (markRunning s j ret now) j e n now).jobs j = some
      { r with
        state := "FAILED", retries := n, last_error := e,
        updated_at := now, completed_at := now } := by
  unfold markFailed markRunning updateJobRecord
  rw [hr2]
  simp

/-- C3: on a failed attempt with `next = retries + 1 ≤ max_retries`,
the worker marks the job PENDING with `retries = next` and the error
message, appends exactly one re-enqueued message carrying
`retries = next`, sleeps exactly
`min(retry_base_ms * 2 ^ (next - 1), retry_max_ms)` milliseconds — a
deterministic function of `next` and the retry configuration — and ACKs
the original message; the DLQ is untouched. -/
theorem C3_retry_backoff (cfg : SearchConfig)
    (trim : List StreamMsg → List StreamMsg)
    (parse : String → Option PayloadDict)
    (exec : PayloadDict → Except Exc RustResult) (judge : JudgeOracle)
    (dumps : ResultDict → String) (now : String) (s : RedisState)
    (m : StreamMsg) (r : JobRecord) (exc : Exc) (hjid : m.job_id ≠ "")
    (hr : getJobRecord s m.job_id = some r) (hcanc : r.canceled = false)
    (hpl : m.payload_json ≠ "")
    (hfail : runAttempt parse exec judge m.payload_json = .error exc)
    (hnext : m.retries + 1 ≤ cfg.max_retries)
    (hdepth : queueDepth s ≤ cfg.redis.queue_max_len) :
    (processMessage cfg trim parse exec judge dumps now s m).2 =
      [Effect.sleepMs (min (cfg.retry_base_ms * 2 ^ (m.retries + 1 - 1))
        cfg.retry_max_ms), Effect.ack] ∧
    (processMessage cfg trim parse exec judge dumps now s m).1.jobs m.job_id =
      some
        { r with
          state := "PENDING", retries := m.retries + 1,
          last_error := exc.msg, updated_at := now } ∧
    (processMessage cfg trim parse exec judge dumps now s m).1.stream =
      s.stream ++
        [{ job_id := m.job_id, payload_json := m.payload_json,
           retries := m.retries + 1, module_name := r.module_name,
           enqueued_at := now }] ∧
    (processMessage cfg trim parse exec judge dumps now s m).1.dlq = s.dlq := by
  have hr2 : s.jobs m.job_id = some r := hr
  have hstep := processMessage_retry_eq cfg trim parse exec judge dumps now s m
    r exc hjid hr2 hcanc hpl hfail hnext
  have hmarks := jobs_after_pending_retry s m.job_id r hr2 m.retries
    (m.retries + 1) exc.msg now
  have hstream2 : (markPendingRetry (markRunning s m.job_id m.retries now)
      m.job_id (m.retries + 1) exc.msg now).stream = s.stream := rfl
  refine ⟨by rw [hstep], ?_, ?_, ?_⟩
  · rw [hstep]
    unfold enqueue truncateIfNeeded
    rw [if_pos (by simpa [queueDepth, hstream2] using hdepth)]
    exact hmarks
  · rw [hstep]
    unfold enqueue truncateIfNeeded
    rw [if_pos (by simpa [queueDepth, hstream2] using hdepth)]
    simp [hstream2]
  · rw [hstep]
    unfold enqueue truncateIfNeeded
    rw [if_pos (by simpa [queueDepth, hstream2] using hdepth)]
    rfl

/-- Witness for C3: job `jp` fails its first attempt under `cfgW`
(`max_retries = 3`, `retry_base_ms = 100`), so the worker sleeps
exactly `min(100 * 2^0, 1000) = 100` ms. -/
theorem C3_retry_backoff_witness :
    runAttempt parsePendW execBoom (fun _ _ => .ok []) "pj" =
      .error ⟨.jobFailedError, "boom"⟩ ∧
    (processMessage cfgW id parsePendW execBoom (fun _ _ => .ok [])
      (fun _ => "") "t2" sPendW msgPendW).2 =
      [Effect.sleepMs 100, Effect.ack] :=
  ⟨rfl,
    (C3_retry_backoff cfgW id parsePendW execBoom (fun _ _ => .ok [])
      (fun _ => "") "t2" sPendW msgPendW recPendW ⟨.jobFailedError, "boom"⟩
      (by decide) (by decide) (by decide) (by decide) rfl (by decide)
      (by decide)).1⟩

/-- Enqueue never touches the job hashes. -/
theorem enqueue_jobs (cfg : RedisQueueConfig)
    (trim : List StreamMsg → List StreamMsg) (s : RedisState)
    (j pj : String) (n : Nat) (mn now : String) :
    (enqueue cfg trim s j pj n mn now).jobs = s.jobs := by
  unfold enqueue truncateIfNeeded
  by_cases h : queueDepth s ≤ cfg.queue_max_len <;> simp [h]

/-- Within the length cap, enqueue appends exactly one message. -/
theorem enqueue_stream_no_trim (cfg : RedisQueueConfig)
    (trim : List StreamMsg → List StreamMsg) (s : RedisState)
    (j pj : String) (n : Nat) (mn now : String)
    (h : queueDepth s ≤ cfg.queue_max_len) :
    (enqueue cfg trim s j pj n mn now).stream = s.stream ++
      [{ job_id := j, payload_json := pj, retries := n, module_name := mn,
         enqueued_at := now }] := by
  unfold enqueue truncateIfNeeded
  simp [h]

/-- Counterexample to C2 as stated: under `cfgMR0` job `jp` fails its
first attempt and is marked FAILED without any re-enqueue (the stream
is unchanged, so zero re-enqueues were ever performed), yet the stored
`retries` field is 1, not 0 — `mark_failed` receives `next_retry`, the
failed attempt number, not the re-enqueue count. -/
theorem C2_counterexample :
    (processMessage cfgMR0 id parsePendW execBoom (fun _ _ => .ok [])
        (fun _ => "") "t2" sPendW msgPendW).1.jobs "jp" = some
      { recPendW with
        state := "FAILED", retries := 1, last_error := "boom",
        updated_at := "t2", completed_at := "t2" } ∧
    (processMessage cfgMR0 id parsePendW execBoom (fun _ _ => .ok [])
        (fun _ => "") "t2" sPendW msgPendW).1.stream = sPendW.stream :=
  ⟨rfl, rfl⟩

/-- C2 amended: after a failure handling step, the stored `retries`
field equals the failed attempt number `m.retries + 1`.  While the job
stays retriable this coincides with the number of re-enqueues (exactly
one message carrying `retries = m.retries + 1` is appended), but on the
terminal FAILED write it equals the number of re-enqueues plus one
(nothing is appended).  The field never decreases. -/
theorem C2_amended_retries_accounting (cfg : SearchConfig)
    (trim : List StreamMsg → List StreamMsg)
    (parse : String → Option PayloadDict)
    (exec : PayloadDict → Except Exc RustResult) (judge : JudgeOracle)
    (dumps : ResultDict → String) (now : String) (s : RedisState)
    (m : StreamMsg) (r : JobRecord) (exc : Exc) (hjid : m.job_id ≠ "")
    (hr : getJobRecord s m.job_id = some r) (hcanc : r.canceled = false)
    (hpl : m.payload_json ≠ "")
    (hfail : runAttempt parse exec judge m.payload_json = .error exc)
    (hdepth : queueDepth s ≤ cfg.redis.queue_max_len)
    (hmono : r.retries ≤ m.retries) :
    ((processMessage cfg trim parse exec judge dumps now s m).1.jobs
        m.job_id).map (fun r2 => r2.retries) = some (m.retries + 1) ∧
    (m.retries + 1 ≤ cfg.max_retries →
      ∃ newMsg, (processMessage cfg trim parse exec judge dumps now s
          m).1.stream = s.stream ++ [newMsg] ∧
        newMsg.retries = m.retries + 1) ∧
    (cfg.max_retries < m.retries + 1 →
      (processMessage cfg trim parse exec judge dumps now s m).1.stream =
        s.stream ∧
      ((processMessage cfg trim parse exec judge dumps now s m).1.jobs
          m.job_id).map (fun r2 => r2.state) = some "FAILED") ∧
    (∀ r2, (processMessage cfg trim parse exec judge dumps now s m).1.jobs
        m.job_id = some r2 → r.retries ≤ r2.retries) := by
  have hr2 : s.jobs m.job_id = some r := hr
  by_cases hnext : m.retries + 1 ≤ cfg.max_retries
  · have hstep := processMessage_retry_eq cfg trim parse exec judge dumps now
      s m r exc hjid hr2 hcanc hpl hfail hnext
    have hjobs : (processMessage cfg trim parse exec judge dumps now s
        m).1.jobs m.job_id = some
        { r with
          state := "PENDING", retries := m.retries + 1,
          last_error := exc.msg, updated_at := now } := by
      rw [hstep]
      show (enqueue _ _ _ _ _ _ _ _).jobs m.job_id = _
      rw [enqueue_jobs]
      exact jobs_after_pending_retry s m.job_id r hr2 m.retries
        (m.retries + 1) exc.msg now
    refine ⟨by rw [hjobs]; rfl, fun _ => ?_,
      fun hgt => absurd hnext (by omega), ?_⟩
    · refine ⟨StreamMsg.mk m.job_id m.payload_json (m.retries + 1)
        r.module_name now, ?_, rfl⟩
      rw [hstep]
      exact enqueue_stream_no_trim cfg.redis trim _ m.job_id m.payload_json
        (m.retries + 1) r.module_name now hdepth
    · intro r2 h2
      rw [hjobs] at h2
      have : r2.retries = m.retries + 1 := by
        cases h2
        rfl
      omega
  · have hstep := processMessage_fail_eq cfg trim parse exec judge dumps now
      s m r exc hjid hr2 hcanc hpl hfail (by omega)
    have hjobs : (processMessage cfg trim parse exec judge dumps now s
        m).1.jobs m.job_id = some
        { r with
          state := "FAILED", retries := m.retries + 1,
          last_error := exc.msg, updated_at := now, completed_at := now } := by
      rw [hstep]
      exact jobs_after_failed s m.job_id r hr2 m.retries (m.retries + 1)
        exc.msg now
    refine ⟨by rw [hjobs]; rfl, fun hle => absurd hle hnext, fun _ => ?_, ?_⟩
    · exact ⟨by rw [hstep]; rfl, by rw [hjobs]; rfl⟩
    · intro r2 h2
      rw [hjobs] at h2
      have : r2.retries = m.retries + 1 := by
        cases h2
        rfl
      omega

/-- Success characterization of the `_validate_decisions` loop: it
accepts exactly when every decision id is an expected id and the
decision ids are pairwise distinct and disjoint from the ids already
seen. -/
theorem validateDecisionsAux_ok_iff (expected : List String)
    (decs : List SearchFilterDecision) (seen : List String) :
    (∃ out, validateDecisionsAux expected decs seen = .ok out) ↔
      ((∀ d ∈ decs, d.node_id ∈ expected) ∧ (decisionIds decs).Nodup ∧
        ∀ x ∈ decisionIds decs, x ∉ seen) := by
  induction decs generalizing seen with
  | nil => simp [validateDecisionsAux, decisionIds]
  | cons d rest ih =>
    by_cases h1 : d.node_id ∈ expected
    · by_cases h2 : d.node_id ∈ seen
      · simp only [validateDecisionsAux, if_neg (not_not_intro h1), if_pos h2]
        constructor
        · rintro ⟨out, hout⟩
          cases hout
        · rintro ⟨_, _, hnin⟩
          exact absurd h2 (hnin d.node_id (by simp [decisionIds_cons]))
      · simp only [validateDecisionsAux, if_neg (not_not_intro h1), if_neg h2]
        rw [ih]
        constructor
        · rintro ⟨hexp, hnodup, hnin⟩
          refine ⟨?_, ?_, ?_⟩
          · intro d2 hd2
            rcases List.mem_cons.mp hd2 with rfl | hd2
            · exact h1
            · exact hexp d2 hd2
          · rw [decisionIds_cons, List.nodup_cons]
            refine ⟨fun hmem => ?_, hnodup⟩
            exact (hnin d.node_id hmem) (List.mem_cons_self _ _)
          · intro x hx
            rw [decisionIds_cons] at hx
            rcases List.mem_cons.mp hx with rfl | hx
            · exact h2
            · intro hxseen
              exact (hnin x hx) (List.mem_cons_of_mem _ hxseen)
        · rintro ⟨hexp, hnodup, hnin⟩
          rw [decisionIds_cons, List.nodup_cons] at hnodup
          refine ⟨fun d2 hd2 => hexp d2 (List.mem_cons_of_mem _ hd2),
            hnodup.2, ?_⟩
          intro x hx hxin
          rcases List.mem_cons.mp hxin with rfl | hxseen
          · exact hnodup.1 hx
          · refine (hnin x ?_) hxseen
            rw [decisionIds_cons]
            exact List.mem_cons_of_mem _ hx
    · constructor
      · rintro ⟨out, hout⟩
        unfold validateDecisionsAux at hout
        rw [if_pos h1] at hout
        cases hout
      · rintro ⟨hexp, _, _⟩
        exact absurd (hexp d (List.mem_cons_self _ _)) h1

/-- On success the `_validate_decisions` loop has seen exactly the
decision ids plus the initially seen ids. -/
theorem validateDecisionsAux_ok_seen (expected : List String)
    (decs : List SearchFilterDecision) :
    ∀ (seen out : List String),
      validateDecisionsAux expected decs seen = .ok out →
      ∀ x, x ∈ out ↔ x ∈ decisionIds decs ∨ x ∈ seen := by
  induction decs with
  | nil =>
    intro seen out h x
    simp only [validateDecisionsAux] at h
    cases h
    simp [decisionIds]
  | cons d rest ih =>
    intro seen out h x
    simp only [validateDecisionsAux] at h
    by_cases h1 : d.node_id ∈ expected
    · rw [if_neg (not_not_intro h1)] at h
      by_cases h2 : d.node_id ∈ seen
      · rw [if_pos h2] at h
        cases h
      · rw [if_neg h2] at h
        rw [ih (d.node_id :: seen) out h x]
        simp only [decisionIds_cons, List.mem_cons]
        tauto
    · rw [if_pos h1] at h
      cases h

/-- Emptiness of the sorted missing-id list coincides with emptiness of
the filtered list. -/
theorem sortedIds_eq_nil_iff (ids : List String) :
    sortedIds ids = [] ↔ ids = [] := by
  constructor
  · intro h
    have hlen := congrArg List.length h
    rw [show sortedIds ids = List.insertionSort (fun a b => a ≤ b) ids from
      rfl, List.length_insertionSort] at hlen
    exact List.length_eq_zero.mp hlen
  · intro h
    rw [h]
    rfl

/-- The acceptance condition of `_validate_decisions`: all decision ids
are candidate ids, no duplicates among them, and no candidate id is
missing. -/
theorem validateDecisions_ok_iff (cands : List SearchFilterCandidate)
    (decs : List SearchFilterDecision) :
    validateDecisions cands decs = .ok () ↔
      ((∀ d ∈ decs, d.node_id ∈ candidateIds cands) ∧
        (decisionIds decs).Nodup ∧
        ∀ x ∈ candidateIds cands, x ∈ decisionIds decs) := by
  cases haux : validateDecisionsAux (candidateIds cands) decs [] with
  | error e =>
    have hred : validateDecisions cands decs = .error e := by
      unfold validateDecisions
      rw [haux]
    rw [hred]
    constructor
    · intro h
      cases h
    · rintro ⟨h1, h2, _⟩
      obtain ⟨out, hout⟩ :=
        (validateDecisionsAux_ok_iff (candidateIds cands) decs []).mpr
          ⟨h1, h2, by simp⟩
      rw [haux] at hout
      cases hout
  | ok seen =>
    have hseen := validateDecisionsAux_ok_seen _ _ _ _ haux
    have hconds := (validateDecisionsAux_ok_iff (candidateIds cands) decs
      []).mp ⟨seen, haux⟩
    have hmem : ∀ x, x ∈ seen ↔ x ∈ decisionIds decs := by
      intro x
      rw [hseen x]
      simp
    have hred : validateDecisions cands decs =
        (if sortedIds (((candidateIds cands).dedup).filter
            (fun x => x ∉ seen)) ≠ [] then
          Except.error ⟨.configurationError,
            "검색 필터 LLM 응답 누락 node_id: " ++ String.intercalate ", "
              (sortedIds (((candidateIds cands).dedup).filter
                (fun x => x ∉ seen)))⟩
        else Except.ok ()) := by
      unfold validateDecisions
      rw [haux]
    have hmissing : (sortedIds (((candidateIds cands).dedup).filter
        (fun x => x ∉ seen)) = []) ↔
        ∀ x ∈ candidateIds cands, x ∈ seen := by
      rw [sortedIds_eq_nil_iff]
      constructor
      · intro hfilter x hx
        by_contra hnot
        have hxin : x ∈ ((candidateIds cands).dedup).filter
            (fun x => x ∉ seen) := by
          simp only [List.mem_filter, List.mem_dedup, decide_eq_true_eq]
          exact ⟨hx, hnot⟩
        rw [hfilter] at hxin
        cases hxin
      · intro h
        rw [List.filter_eq_nil_iff]
        intro x hx
        have := h x (List.mem_dedup.mp hx)
        simp [this]
    rw [hred]
    by_cases hm : sortedIds (((candidateIds cands).dedup).filter
        (fun x => x ∉ seen)) = []
    · rw [if_neg (not_not_intro hm)]
      constructor
      · intro _
        exact ⟨hconds.1, hconds.2.1,
          fun x hx => (hmem x).mp (hmissing.mp hm x hx)⟩
      · intro _
        rfl
    · rw [if_pos hm]
      constructor
      · intro h
        cases h
      · rintro ⟨_, _, h3⟩
        exact absurd (hmissing.mpr fun x hx => (hmem x).mpr (h3 x hx)) hm

/-- The sorted missing-id computation is empty exactly when every
expected id was seen. -/
theorem sorted_missing_nil_iff (expected seen : List String) :
    sortedIds ((expected.dedup).filter (fun x => x ∉ seen)) = [] ↔
      ∀ x ∈ expected, x ∈ seen := by
  rw [sortedIds_eq_nil_iff]
  constructor
  · intro hfilter x hx
    by_contra hnot
    have hxin : x ∈ (expected.dedup).filter (fun x => x ∉ seen) := by
      simp only [List.mem_filter, List.mem_dedup, decide_eq_true_eq]
      exact ⟨hx, hnot⟩
    rw [hfilter] at hxin
    cases hxin
  · intro h
    rw [List.filter_eq_nil_iff]
    intro x hx
    have := h x (List.mem_dedup.mp hx)
    simp [this]

/-- Success characterization of the `_to_decision_map` loop, mirroring
the `_validate_decisions` loop with the accumulated map keys as the
seen set. -/
theorem toDecisionMapAux_ok_iff (expected : List String)
    (decs : List SearchFilterDecision)
    (mapped : List (String × SearchFilterDecision)) :
    (∃ out, toDecisionMapAux expected decs mapped = .ok out) ↔
      ((∀ d ∈ decs, d.node_id ∈ expected) ∧ (decisionIds decs).Nodup ∧
        ∀ x ∈ decisionIds decs, x ∉ mapped.map Prod.fst) := by
  induction decs generalizing mapped with
  | nil => simp [toDecisionMapAux, decisionIds]
  | cons d rest ih =>
    by_cases h1 : d.node_id ∈ expected
    · by_cases h2 : d.node_id ∈ mapped.map Prod.fst
      · simp only [toDecisionMapAux, if_neg (not_not_intro h1), if_pos h2]
        constructor
        · rintro ⟨out, hout⟩
          cases hout
        · rintro ⟨_, _, hnin⟩
          exact absurd h2 (hnin d.node_id (by simp [decisionIds_cons]))
      · simp only [toDecisionMapAux, if_neg (not_not_intro h1), if_neg h2]
        rw [ih]
        have hkeys : (mapped ++ [(d.node_id, d)]).map Prod.fst =
            mapped.map Prod.fst ++ [d.node_id] := by simp
        constructor
        · rintro ⟨hexp, hnodup, hnin⟩
          refine ⟨?_, ?_, ?_⟩
          · intro d2 hd2
            rcases List.mem_cons.mp hd2 with rfl | hd2
            · exact h1
            · exact hexp d2 hd2
          · rw [decisionIds_cons, List.nodup_cons]
            refine ⟨fun hmem => ?_, hnodup⟩
            have := hnin d.node_id hmem
            rw [hkeys] at this
            exact this (by simp)
          · intro x hx
            rw [decisionIds_cons] at hx
            rcases List.mem_cons.mp hx with rfl | hx
            · exact h2
            · intro hxk
              have := hnin x hx
              rw [hkeys] at this
              exact this (List.mem_append_left _ hxk)
        · rintro ⟨hexp, hnodup, hnin⟩
          rw [decisionIds_cons, List.nodup_cons] at hnodup
          refine ⟨fun d2 hd2 => hexp d2 (List.mem_cons_of_mem _ hd2),
            hnodup.2, ?_⟩
          intro x hx
          rw [hkeys]
          intro hxin
          rcases List.mem_append.mp hxin with hxk | hxd
          · refine (hnin x ?_) hxk
            rw [decisionIds_cons]
            exact List.mem_cons_of_mem _ hx
          · have hxd2 : x = d.node_id := by simpa using hxd
            exact hnodup.1 (hxd2 ▸ hx)
    · constructor
      · rintro ⟨out, hout⟩
        unfold toDecisionMapAux at hout
        rw [if_pos h1] at hout
        cases hout
      · rintro ⟨hexp, _, _⟩
        exact absurd (hexp d (List.mem_cons_self _ _)) h1

/-- On success the `_to_decision_map` loop returns the accumulated map
followed by one binding per decision, in order. -/
theorem toDecisionMapAux_ok_val (expected : List String)
    (decs : List SearchFilterDecision) :
    ∀ (mapped out : List (String × SearchFilterDecision)),
      toDecisionMapAux expected decs mapped = .ok out →
      out = mapped ++ decs.map (fun d => (d.node_id, d)) := by
  induction decs with
  | nil =>
    intro mapped out h
    simp only [toDecisionMapAux] at h
    cases h
    simp
  | cons d rest ih =>
    intro mapped out h
    simp only [toDecisionMapAux] at h
    by_cases h1 : d.node_id ∈ expected
    · rw [if_neg (not_not_intro h1)] at h
      by_cases h2 : d.node_id ∈ mapped.map Prod.fst
      · rw [if_pos h2] at h
        cases h
      · rw [if_neg h2] at h
        rw [ih _ _ h]
        simp
    · rw [if_pos h1] at h
      cases h

/-- The acceptance condition of `_to_decision_map` coincides with that
of `_validate_decisions`. -/
theorem toDecisionMap_ok_iff (cands : List SearchFilterCandidate)
    (decs : List SearchFilterDecision) :
    (∃ out, toDecisionMap cands decs = .ok out) ↔
      ((∀ d ∈ decs, d.node_id ∈ candidateIds cands) ∧
        (decisionIds decs).Nodup ∧
        ∀ x ∈ candidateIds cands, x ∈ decisionIds decs) := by
  cases haux : toDecisionMapAux (candidateIds cands) decs [] with
  | error e =>
    have hred : toDecisionMap cands decs = .error e := by
      unfold toDecisionMap
      rw [haux]
    constructor
    · rintro ⟨out, hout⟩
      rw [hred] at hout
      cases hout
    · rintro ⟨h1, h2, _⟩
      obtain ⟨out, hout⟩ :=
        (toDecisionMapAux_ok_iff (candidateIds cands) decs []).mpr
          ⟨h1, h2, by simp⟩
      rw [haux] at hout
      cases hout
  | ok mapped =>
    have hval := toDecisionMapAux_ok_val (candidateIds cands) decs [] mapped
      haux
    have hkeys : mapped.map Prod.fst = decisionIds decs := by
      rw [hval]
      simp [decisionIds]
    have hconds := (toDecisionMapAux_ok_iff (candidateIds cands) decs
      []).mp ⟨mapped, haux⟩
    have hred : toDecisionMap cands decs =
        (if sortedIds (((candidateIds cands).dedup).filter
            (fun x => x ∉ mapped.map Prod.fst)) ≠ [] then
          Except.error ⟨.jobFailedError,
            "검색 필터 응답에 누락된 node_id가 있습니다: " ++
              String.intercalate ", "
                (sortedIds (((candidateIds cands).dedup).filter
                  (fun x => x ∉ mapped.map Prod.fst)))⟩
        else Except.ok mapped) := by
      unfold toDecisionMap
      rw [haux]
    by_cases hm : sortedIds (((candidateIds cands).dedup).filter
        (fun x => x ∉ mapped.map Prod.fst)) = []
    · constructor
      · intro _
        refine ⟨hconds.1, hconds.2.1, fun x hx => ?_⟩
        have := (sorted_missing_nil_iff _ _).mp hm x hx
        rwa [hkeys] at this
      · intro _
        refine ⟨mapped, ?_⟩
        rw [hred, if_neg (not_not_intro hm)]
    · constructor
      · rintro ⟨out, hout⟩
        rw [hred, if_pos hm] at hout
        cases hout
      · rintro ⟨_, _, h3⟩
        exfalso
        apply hm
        apply (sorted_missing_nil_iff _ _).mpr
        intro x hx
        rw [hkeys]
        exact h3 x hx

/-- A successful `_to_decision_map` is exactly the one-binding-per-
decision association list, in decision order. -/
theorem toDecisionMap_ok_val (cands : List SearchFilterCandidate)
    (decs : List SearchFilterDecision)
    (out : List (String × SearchFilterDecision))
    (h : toDecisionMap cands decs = .ok out) :
    out = decs.map (fun d => (d.node_id, d)) := by
  cases haux : toDecisionMapAux (candidateIds cands) decs [] with
  | error e =>
    have hred : toDecisionMap cands decs = .error e := by
      unfold toDecisionMap
      rw [haux]
    rw [hred] at h
    cases h
  | ok mapped =>
    have hred : toDecisionMap cands decs =
        (if sortedIds (((candidateIds cands).dedup).filter
            (fun x => x ∉ mapped.map Prod.fst)) ≠ [] then
          Except.error ⟨.jobFailedError,
            "검색 필터 응답에 누락된 node_id가 있습니다: " ++
              String.intercalate ", "
                (sortedIds (((candidateIds cands).dedup).filter
                  (fun x => x ∉ mapped.map Prod.fst)))⟩
        else Except.ok mapped) := by
      unfold toDecisionMap
      rw [haux]
    rw [hred] at h
    by_cases hm : sortedIds (((candidateIds cands).dedup).filter
        (fun x => x ∉ mapped.map Prod.fst)) = []
    · rw [if_neg (not_not_intro hm)] at h
      have hout := Except.ok.inj h
      have := toDecisionMapAux_ok_val (candidateIds cands) decs [] mapped haux
      rw [← hout]
      simpa using this
    · rw [if_pos hm] at h
      cases h

/-- Dictionary lookup in the decision map built by `_to_decision_map`
returns the first decision carrying the looked-up id. -/
theorem lookup_map_pair (decs : List SearchFilterDecision) (x : String) :
    (decs.map (fun d => (d.node_id, d))).lookup x =
      decs.find? (fun d => d.node_id == x) := by
  induction decs with
  | nil => rfl
  | cons d rest ih =>
    simp only [List.map_cons, List.lookup_cons, List.find?]
    by_cases h : x = d.node_id
    · simp [h]
    · have h1 : (x == d.node_id) = false := by simp [h]
      have h2 : (d.node_id == x) = false := by simp [Ne.symm h]
      rw [h1, h2]
      exact ih

/-- The keep loop of `_build_filtered_result` computes the filterMap of
the decision-map lookups. -/
theorem applyDecisions_ok_val (dmap : List (String × SearchFilterDecision)) :
    ∀ (cs kept : List SearchCandidate),
      applyDecisions dmap cs = .ok kept →
      kept = cs.filterMap (fun c =>
        match dmap.lookup c.node_id with
        | some d => if d.keep then some { c with reason := d.reason }
            else none
        | none => none) := by
  intro cs
  induction cs with
  | nil =>
    intro kept h
    simp only [applyDecisions] at h
    cases h
    rfl
  | cons c rest ih =>
    intro kept h
    simp only [applyDecisions] at h
    cases hl : dmap.lookup c.node_id with
    | none =>
      simp only [hl] at h
      cases h
    | some d =>
      simp only [hl] at h
      cases ht : applyDecisions dmap rest with
      | error e =>
        simp only [ht] at h
        cases h
      | ok tail =>
        simp only [ht] at h
        by_cases hk : d.keep
        · rw [if_pos hk] at h
          have hkt := Except.ok.inj h
          rw [List.filterMap_cons]
          simp only [hl, if_pos hk]
          rw [← hkt, ← ih tail ht]
        · rw [if_neg hk] at h
          have hkt := Except.ok.inj h
          rw [List.filterMap_cons]
          simp only [hl, if_neg hk]
          rw [← hkt]
          exact ih tail ht

/-- Counterexample to C4 as stated: with the duplicate-id candidate
list `[a, a]` both validators accept the single-decision response
`[a]`, although the returned id multiset `[a]` does not equal the input
id multiset `[a, a]` — the code compares id sets, with a no-duplicate
check on the response side only. -/
theorem C4_counterexample :
    validateDecisions [⟨"a", "c1"⟩, ⟨"a", "c2"⟩] [⟨"a", true, "r"⟩] =
      .ok () ∧
    (∃ out, toDecisionMap [⟨"a", "c1"⟩, ⟨"a", "c2"⟩] [⟨"a", true, "r"⟩] =
      .ok out) ∧
    ¬ (decisionIds [⟨"a", true, "r"⟩]).Perm
        (candidateIds [⟨"a", "c1"⟩, ⟨"a", "c2"⟩]) :=
  ⟨rfl, ⟨[("a", ⟨"a", true, "r"⟩)], rfl⟩, by decide⟩

/-- C4 amended: when the input candidate ids are pairwise distinct (the
normal case), both `_validate_decisions` and `_to_decision_map` accept
the judge's response exactly when the multiset of returned ids equals
the multiset of input ids; in general they enforce equality of id sets
plus a no-duplicate check on the response.  A validation failure
propagates out of `_build_filtered_result` as the raised exception, and
a worker holding such a failing attempt within the retry budget marks
the job PENDING and sleeps the backoff — the retriable-pipeline-error
classification — instead of surfacing the error unretried. -/
theorem C4_amended_filter_validation (cands : List SearchFilterCandidate)
    (decs : List SearchFilterDecision)
    (hnd : (candidateIds cands).Nodup) :
    (validateDecisions cands decs = .ok () ↔
      (decisionIds decs).Perm (candidateIds cands)) ∧
    ((∃ out, toDecisionMap cands decs = .ok out) ↔
      (decisionIds decs).Perm (candidateIds cands)) ∧
    (∀ exc, validateDecisions cands decs = .error exc →
      ∀ (payload : PayloadDict) (rust : RustResult)
        (cs : List SearchCandidate),
        rust.candidates = some cs → cs.isEmpty = false →
        cs.map (fun c => SearchFilterCandidate.mk c.node_id c.content) =
          cands →
        buildFilteredResult (fun _ _ => .ok decs) payload rust =
          .error exc ∧
        ∀ (cfg : SearchConfig) (trim : List StreamMsg → List StreamMsg)
          (parse : String → Option PayloadDict)
          (exec : PayloadDict → Except Exc RustResult)
          (dumps : ResultDict → String) (now : String) (s : RedisState)
          (m : StreamMsg) (r : JobRecord),
          m.job_id ≠ "" → s.jobs m.job_id = some r → r.canceled = false →
          m.payload_json ≠ "" → parse m.payload_json = some payload →
          exec payload = .ok rust → m.retries + 1 ≤ cfg.max_retries →
          ((processMessage cfg trim parse exec (fun _ _ => .ok decs) dumps
              now s m).1.jobs m.job_id).map (fun r2 => r2.state) =
            some "PENDING" ∧
          (processMessage cfg trim parse exec (fun _ _ => .ok decs) dumps
              now s m).2 =
            [Effect.sleepMs (min (cfg.retry_base_ms * 2 ^ (m.retries + 1 - 1))
              cfg.retry_max_ms), Effect.ack]) := by
  have hperm_iff : ((∀ d ∈ decs, d.node_id ∈ candidateIds cands) ∧
      (decisionIds decs).Nodup ∧
      ∀ x ∈ candidateIds cands, x ∈ decisionIds decs) ↔
      (decisionIds decs).Perm (candidateIds cands) := by
    constructor
    · rintro ⟨h1, h2, h3⟩
      refine (List.perm_ext_iff_of_nodup h2 hnd).mpr fun x =>
        ⟨fun hx => ?_, fun hx => h3 x hx⟩
      obtain ⟨d, hd, rfl⟩ := List.mem_map.mp hx
      exact h1 d hd
    · intro hp
      exact ⟨fun d hd => hp.mem_iff.mp (List.mem_map_of_mem _ hd),
        hp.symm.nodup hnd, fun x hx => hp.mem_iff.mpr hx⟩
  refine ⟨(validateDecisions_ok_iff cands decs).trans hperm_iff,
    (toDecisionMap_ok_iff cands decs).trans hperm_iff, ?_⟩
  intro exc hval payload rust cs hcs hempty hmap
  have hbuild : buildFilteredResult (fun _ _ => .ok decs) payload rust =
      .error exc := by
    unfold buildFilteredResult
    rw [hcs]
    simp only [hempty, Bool.false_eq_true, if_false]
    rw [hmap]
    unfold llmFilterRun
    simp only [hval]
  refine ⟨hbuild, ?_⟩
  intro cfg trim parse exec dumps now s m r hjid hr2 hcanc hpl hparse hexec
    hnext
  have hattempt : runAttempt parse exec (fun _ _ => .ok decs)
      m.payload_json = .error exc := by
    unfold runAttempt
    rw [hparse]
    simp only [hexec]
    exact hbuild
  have hstep := processMessage_retry_eq cfg trim parse exec
    (fun _ _ => .ok decs) dumps now s m r exc hjid hr2 hcanc hpl hattempt
    hnext
  constructor
  · have hjobs : (processMessage cfg trim parse exec (fun _ _ => .ok decs)
        dumps now s m).1.jobs m.job_id = some
        { r with
          state := "PENDING", retries := m.retries + 1,
          last_error := exc.msg, updated_at := now } := by
      rw [hstep]
      show (enqueue _ _ _ _ _ _ _ _).jobs m.job_id = _
      rw [enqueue_jobs]
      exact jobs_after_pending_retry s m.job_id r hr2 m.retries
        (m.retries + 1) exc.msg now
    rw [hjobs]
    rfl
  · rw [hstep]

/-- Witness for the amended C4: distinct candidate ids `[a, b]` with a
permuted full response are accepted. -/
theorem C4_amended_filter_validation_witness :
    (candidateIds [⟨"a", "c1"⟩, ⟨"b", "c2"⟩]).Nodup ∧
    validateDecisions [⟨"a", "c1"⟩, ⟨"b", "c2"⟩]
      [⟨"b", true, "r1"⟩, ⟨"a", false, "r2"⟩] = .ok () :=
  ⟨by decide,
    (C4_amended_filter_validation [⟨"a", "c1"⟩, ⟨"b", "c2"⟩]
      [⟨"b", true, "r1"⟩, ⟨"a", false, "r2"⟩] (by decide)).1.mpr (by decide)⟩

/-- C5: for a successful filtered build over a non-empty candidate
list, the final candidates number at most `top_k`; `kept_count` equals
the final (post-truncation) length; the final list is sorted by
`(-score, path ascending)`; it is the `top_k`-prefix of a sorted
arrangement of exactly the candidates the judge marked `keep = true`
(re-tagged with the judge's reasons); and every final candidate matches
a pre-filter candidate in every field except `reason`. -/
theorem C5_ranking_truncation (judge : JudgeOracle) (payload : PayloadDict)
    (rust : RustResult) (cs : List SearchCandidate)
    (decs : List SearchFilterDecision) (res : ResultDict)
    (hcs : rust.candidates = some cs) (hne : cs.isEmpty = false)
    (hjudge : judge payload.question (cs.map (fun c =>
      SearchFilterCandidate.mk c.node_id c.content)) = .ok decs)
    (hok : buildFilteredResult judge payload rust = .ok res) :
    res.candidates.length ≤ payload.top_k ∧
    res.metrics.kept_count = res.candidates.length ∧
    res.candidates.Pairwise candLe ∧
    (∃ full : List SearchCandidate, full.Perm (keptSpec cs decs) ∧
      full.Pairwise candLe ∧
      res.candidates = full.take payload.top_k) ∧
    ∀ c ∈ res.candidates, ∃ c0 ∈ cs, c.node_id = c0.node_id ∧
      c.path = c0.path ∧ c.score = c0.score ∧ c.content = c0.content ∧
      c.image_url = c0.image_url := by
  unfold buildFilteredResult at hok
  rw [hcs] at hok
  simp only [hne, Bool.false_eq_true, if_false] at hok
  unfold llmFilterRun at hok
  simp only [hjudge] at hok
  cases hv : validateDecisions (cs.map fun c =>
      SearchFilterCandidate.mk c.node_id c.content) decs with
  | error e =>
    simp only [hv] at hok
    cases hok
  | ok u =>
    simp only [hv] at hok
    cases hdm : toDecisionMap (cs.map fun c =>
        SearchFilterCandidate.mk c.node_id c.content) decs with
    | error e =>
      simp only [hdm] at hok
      cases hok
    | ok dmap =>
      simp only [hdm] at hok
      cases hap : applyDecisions dmap cs with
      | error e =>
        simp only [hap] at hok
        cases hok
      | ok kept0 =>
        simp only [hap] at hok
        cases hm : rust.metrics with
        | none =>
          simp only [hm] at hok
          cases hok
        | some mtr =>
          simp only [hm] at hok
          have hres := (Except.ok.inj hok).symm
          have hkept : kept0 = keptSpec cs decs := by
            have h1 := applyDecisions_ok_val dmap cs kept0 hap
            have h2 := toDecisionMap_ok_val _ decs dmap hdm
            rw [h2] at h1
            rw [h1]
            unfold keptSpec
            simp only [lookup_map_pair]
          have hsorted : (List.insertionSort candLe kept0).Pairwise candLe :=
            List.sorted_insertionSort candLe kept0
          have hperm : (List.insertionSort candLe kept0).Perm
              (keptSpec cs decs) := by
            rw [← hkept]
            exact List.perm_insertionSort candLe kept0
          have hfinal : res.candidates =
              (if (List.insertionSort candLe kept0).length > payload.top_k
                then List.take payload.top_k
                  (List.insertionSort candLe kept0)
                else List.insertionSort candLe kept0) := by
            rw [hres]
          have hkc : res.metrics.kept_count = res.candidates.length := by
            rw [hres]
          have hfin2 : res.candidates =
              (List.insertionSort candLe kept0).take payload.top_k := by
            rw [hfinal]
            by_cases hgt :
              (List.insertionSort candLe kept0).length > payload.top_k
            · rw [if_pos hgt]
            · rw [if_neg hgt,
                List.take_of_length_le (Nat.le_of_not_lt hgt)]
          refine ⟨?_, hkc, ?_, ?_, ?_⟩
          · rw [hfin2]
            have := List.length_take payload.top_k
              (List.insertionSort candLe kept0)
            omega
          · rw [hfin2]
            exact List.Pairwise.sublist (List.take_sublist _ _) hsorted
          · exact ⟨List.insertionSort candLe kept0, hperm, hsorted,
              hfin2⟩
          · intro c hc
            rw [hfin2] at hc
            have hc2 : c ∈ List.insertionSort candLe kept0 :=
              (List.take_sublist _ _).subset hc
            have hc3 : c ∈ keptSpec cs decs := hperm.mem_iff.mp hc2
            unfold keptSpec at hc3
            obtain ⟨c0, hc0, hf⟩ := List.mem_filterMap.mp hc3
            refine ⟨c0, hc0, ?_⟩
            cases hfind : decs.find? (fun d => d.node_id == c0.node_id) with
            | none =>
              simp only [hfind] at hf
              cases hf
            | some d =>
              simp only [hfind] at hf
              by_cases hk : d.keep
              · rw [if_pos hk] at hf
                have hcc := Option.some.inj hf
                rw [← hcc]
                exact ⟨rfl, rfl, rfl, rfl, rfl⟩
              · rw [if_neg hk] at hf
                cases hf

/-- Witness for C5: both candidates kept, sorted by descending score,
truncated to `top_k = 1`. -/
theorem C5_ranking_truncation_witness :
    rustCandsW.candidates = some [candA, candB] ∧
    buildFilteredResult (fun _ _ => .ok decsKeepW) payloadTop1W rustCandsW =
      .ok resTop1W ∧
    resTop1W.candidates.length ≤ payloadTop1W.top_k :=
  ⟨rfl, rfl,
    (C5_ranking_truncation (fun _ _ => .ok decsKeepW) payloadTop1W
      rustCandsW [candA, candB] decsKeepW resTop1W rfl rfl rfl rfl).1⟩

/-- Witness for the amended C2 on the retriable first failure of job
`jp` under `cfgW`. -/
theorem C2_amended_retries_accounting_witness :
    runAttempt parsePendW execBoom (fun _ _ => .ok []) "pj" =
      .error ⟨.jobFailedError, "boom"⟩ ∧
    ((processMessage cfgW id parsePendW execBoom (fun _ _ => .ok [])
        (fun _ => "") "t2" sPendW msgPendW).1.jobs "jp").map
      (fun r2 => r2.retries) = some 1 :=
  ⟨rfl,
    (C2_amended_retries_accounting cfgW id parsePendW execBoom
      (fun _ _ => .ok []) (fun _ => "") "t2" sPendW msgPendW recPendW
      ⟨.jobFailedError, "boom"⟩ (by decide) (by decide) (by decide)
      (by decide) rfl (by decide) (by decide)).1⟩

end VtreeSearch
